import Mathlib

/-!
Verification of the playback coordinator of the pianoRollChatbot repository
(`src/components/pianoRoll/playback/usePlaybackCoordinator.ts`).

The coordinator is modelled as a pure state machine.  Musical time and clock
time are represented by rational numbers (the source uses JS numbers; all the
arithmetic involved here — sums, products, `Math.max/min/ceil`, division by
127 — is exact on the concrete inputs considered, so `ℚ` is a faithful
model).  Externally visible side effects (transport mutations, playhead
updates, part/instrument disposal) are collected in an effect trace, and the
roll-side `setLivePlayhead` state is additionally mirrored in a
`livePlayheads` map so that playhead-reset properties can be stated on the
final state.
-/

namespace Coordinator

/-- Model of JS `Math.ceil` on rationals: the least integer above `x`,
implemented computably as the negated floor of `-x`. -/
def jsCeil (x : ℚ) : ℚ := ((-(Rat.floor (-x)) : ℤ) : ℚ)

/-- A note as read from a roll (`NoteDataInput`): pitch, position and
duration in quarter notes, optional velocity (`note.velocity ?? 100`). -/
structure Note where
  pitch : Int
  position : ℚ
  duration : ℚ
  velocity : Option ℚ := none

/-- A registered roll (`RollRegistration`): the coordinator reads its notes
via `getNotes()` and its punch-in point via `getQueueStart()`. -/
structure RollRegistration where
  id : String
  notes : List Note
  queueStart : ℚ

/-- A JS number that is either finite or `Infinity` (used for the loop
count, where `Infinity` is meaningful to the coordinator). -/
inductive JsNum where
  | fin (q : ℚ)
  | inf

/-- Per-roll loop configuration (`LoopConfig`): `count` is optional in the
source (`count?: number`). -/
structure LoopConfig where
  enabled : Bool
  count : Option JsNum := none

/-- The closed enum of instrument kinds (`InstrumentKind`). -/
inductive InstrumentKind where
  | piano
  | poly
  | fm
  | am

/-- A scheduled trigger event, all times in seconds (`scheduledEvents`
entries built in `playRollInternal` / `playQueue`). -/
structure ScheduledEvent where
  pitch : Int
  time : ℚ
  velocity : ℚ
  duration : ℚ

/-- A `Tone.Part`: its event batch together with the loop flag and loop end
set on it (`part.loop`, `part.loopEnd`). -/
structure Part where
  events : List ScheduledEvent
  loop : Bool
  loopEnd : ℚ

/-- The `queueState` record set by `playQueue`. -/
structure QueueItem where
  rollId : String
  index : Nat
  total : Nat

/-- Association-list model of a JS `Map` keyed by roll id: lookup. -/
def mapGet {α : Type} (m : List (String × α)) (k : String) : Option α :=
  (m.find? (fun p => p.1 == k)).map Prod.snd

/-- Association-list model of a JS `Map`: `map.set(k, v)`. -/
def mapSet {α : Type} (m : List (String × α)) (k : String) (v : α) :
    List (String × α) :=
  (k, v) :: m.filter (fun p => p.1 != k)

/-- Association-list model of a JS `Map`: `map.delete(k)`. -/
def mapDelete {α : Type} (m : List (String × α)) (k : String) :
    List (String × α) :=
  m.filter (fun p => p.1 != k)

/-- Association-list model of a JS `Map`: `map.has(k)`. -/
def mapHas {α : Type} (m : List (String × α)) (k : String) : Bool :=
  (mapGet m k).isSome

/-- Externally visible side effects of coordinator operations, in the order
they are performed. -/
inductive Effect where
  | transportStop
  | transportClear
  | transportCancel
  | transportSetPositionZero
  | transportStart (delay : ℚ)
  | scheduleStop (t : ℚ)
  | setPlayhead (rollId : String) (pos : ℚ)
  | partStart (rollId : String)
  | partDispose (rollId : String)
  | cancelAnim (rollId : String)
  | instrumentDisposed (rollId : String)

/-- The coordinator's mutable state: the three registry maps, the reactive
refs (`isPlaying`, `currentRollId`, `queueState`), and the session-local
variables (`currentParts`, `rafIds`, `stopScheduleId`,
`playbackStartPositions`, `currentQueueIds`, `isQueueMode`).
`livePlayheads` mirrors the last `setLivePlayhead` value delivered to each
roll. -/
structure CoordState where
  rolls : List (String × RollRegistration) := []
  instruments : List (String × InstrumentKind) := []
  loopConfigs : List (String × LoopConfig) := []
  isPlaying : Bool := false
  currentRollId : Option String := none
  queueState : Option QueueItem := none
  currentParts : List (String × Part) := []
  rafIds : List String := []
  stopSchedule : Option ℚ := none
  playbackStartPositions : List (String × ℚ) := []
  currentQueueIds : List String := []
  isQueueMode : Bool := false
  livePlayheads : List (String × ℚ) := []

/-- `const START_DELAY = 0.15`. -/
def START_DELAY : ℚ := 0.15

/-- `clearAnimation()` with no argument: cancel every animation frame task
and clear the `rafIds` map. -/
def clearAnimationAll (s : CoordState) : CoordState × List Effect :=
  ({ s with rafIds := [] }, s.rafIds.map Effect.cancelAnim)

/-- `clearTransportSchedules()`: clear the pending stop schedule (if any)
and cancel all transport callbacks. -/
def clearTransportSchedules (s : CoordState) : CoordState × List Effect :=
  (({ s with stopSchedule := none }),
    (if s.stopSchedule.isSome then [Effect.transportClear] else []) ++
      [Effect.transportCancel])

/-- `rafIds.set(rollId, id)` inside `scheduleAnimation`. -/
def rafSet (rafIds : List String) (rollId : String) : List String :=
  rollId :: rafIds.filter (fun i => i != rollId)

/-- `scheduleAnimation(rollId, ...)`: registers the per-roll animation task
(the task body, which only broadcasts positions, is external). -/
def scheduleAnimation (rollId : String) (s : CoordState) : CoordState :=
  if mapHas s.rolls rollId then { s with rafIds := rafSet s.rafIds rollId }
  else s

/-- `registerRoll(roll)`: store the registration, create the default piano
instrument, initialise the loop config to `{enabled:false, count:1}`. -/
def registerRoll (roll : RollRegistration) (s : CoordState) : CoordState :=
  { s with
    rolls := mapSet s.rolls roll.id roll
    instruments := mapSet s.instruments roll.id InstrumentKind.piano
    loopConfigs :=
      mapSet s.loopConfigs roll.id
        { enabled := false, count := some (JsNum.fin 1) } }

/-- `setInstrument(id, kind)`: dispose the current instrument for `id` (if
present) and store a freshly created one of the requested kind. -/
def setInstrument (id : String) (kind : InstrumentKind) (s : CoordState) :
    CoordState × List Effect :=
  (({ s with instruments := mapSet (mapDelete s.instruments id) id kind }),
    if mapHas s.instruments id then [Effect.instrumentDisposed id] else [])

/-- `setLoop(id, config)`: store the loop config for `id`. -/
def setLoop (id : String) (config : LoopConfig) (s : CoordState) :
    CoordState :=
  { s with loopConfigs := mapSet s.loopConfigs id config }

/-- The active-note filter of `playRollInternal` / `playQueue`: keep notes
with `position + duration > playbackStartPosition` and pair each with its
offset `max(0, position - playbackStartPosition)` (quarter notes). -/
def activeNotesOf (playbackStartPosition : ℚ) (notes : List Note) :
    List (Note × ℚ) :=
  (notes.filter
      (fun note =>
        decide (note.position + note.duration > playbackStartPosition))).map
    (fun note => (note, max 0 (note.position - playbackStartPosition)))

/-- JS `Math.max(...list)` for the nonempty lists it is applied to. -/
def jsMax : List ℚ → ℚ
  | [] => 0
  | x :: xs => xs.foldl max x

/-- `maxEndQ`: the largest `position + duration` over the active notes. -/
def maxEndOf (activeNotes : List (Note × ℚ)) : ℚ :=
  jsMax (activeNotes.map (fun entry => entry.1.position + entry.1.duration))

/-- `loopLength = Math.max(1, Math.ceil(maxEndQ - startQ))` (quarters). -/
def loopLengthOf (startQ maxEndQ : ℚ) : ℚ :=
  max 1 (jsCeil (maxEndQ - startQ))

/-- One scheduled event: time is the offset in seconds, velocity is
clamped to `[0,1]` after division by 127, duration is floored at a
sixteenth of a quarter note then converted to seconds. -/
def mkScheduledEvent (quarterSeconds : ℚ) (entry : Note × ℚ) :
    ScheduledEvent :=
  { pitch := entry.1.pitch
    time := entry.2 * quarterSeconds
    velocity := max 0 (min 1 ((entry.1.velocity.getD 100) / 127))
    duration := max entry.1.duration 0.0625 * quarterSeconds }

/-- The `scheduledEvents` array built from the active notes. -/
def scheduledEventsOf (quarterSeconds : ℚ) (activeNotes : List (Note × ℚ)) :
    List ScheduledEvent :=
  activeNotes.map (mkScheduledEvent quarterSeconds)

/-- JS `x || 1` on a possibly-missing loop count (`undefined` and `0` are
falsy). -/
def jsOr1 : Option JsNum → JsNum
  | none => JsNum.fin 1
  | some (JsNum.fin q) => if q = 0 then JsNum.fin 1 else JsNum.fin q
  | some JsNum.inf => JsNum.inf

/-- JS `Math.min(x, 10)` on a possibly-infinite value. -/
def jsMinTen : JsNum → ℚ
  | JsNum.fin q => min q 10
  | JsNum.inf => 10

/-- The `effectiveLoopCount` computation of `playRollInternal`
(lines 223-229): 1 when looping is disabled; in queue mode
`Math.min(count || 1, 10)`; otherwise `Infinity` stays `Infinity` and any
other count goes through `count || 1`. -/
def effectiveLoopCount (isQueueMode : Bool) (loopConfig : Option LoopConfig) :
    JsNum :=
  match loopConfig with
  | some cfg =>
    if cfg.enabled then
      if isQueueMode then JsNum.fin (jsMinTen (jsOr1 cfg.count))
      else
        match cfg.count with
        | some JsNum.inf => JsNum.inf
        | c => jsOr1 c
    else JsNum.fin 1
  | none => JsNum.fin 1

/-- The `effectiveLoopCount` computation of `playQueue` (lines 394-396):
always finite, `Math.min(count || 1, 10)` when looping is enabled. -/
def effectiveLoopCountQueue (loopConfig : Option LoopConfig) : ℚ :=
  match loopConfig with
  | some cfg => if cfg.enabled then jsMinTen (jsOr1 cfg.count) else 1
  | none => 1

/-- `part.loop` in `playRollInternal`:
`effectiveLoopCount > 1 || effectiveLoopCount === Infinity`. -/
def loopFlagSingle : JsNum → Bool
  | JsNum.fin q => decide (q > 1)
  | JsNum.inf => true

/-- `playbackDuration`: fold of `max(end, event.time + event.duration)`
over the scheduled events, starting from 0. -/
def playbackDurationOf (events : List ScheduledEvent) : ℚ :=
  events.foldl (fun e ev => max e (ev.time + ev.duration)) 0

/-- `stopAt` in `playRollInternal` (lines 244-258): `null` for an infinite
loop count; for a looping part
`min(contentEnd + 0.02, totalDuration - 0.001)` with
`contentEnd = playbackDuration + (count-1) * loopLenSec` and
`totalDuration = loopLenSec * count`; otherwise `playbackDuration + 0.1`. -/
def stopAtSingle (loopFlag : Bool) (count : JsNum)
    (playbackDuration loopLenSec : ℚ) : Option ℚ :=
  match count with
  | JsNum.inf => none
  | JsNum.fin k =>
    if loopFlag then
      some (min (playbackDuration + (k - 1) * loopLenSec + 0.02)
        (loopLenSec * k - 0.001))
    else some (playbackDuration + 0.1)

/-- `stopAt` for one roll of `playQueue` (lines 405-415); the count is
always finite there. -/
def stopAtQueue (loopFlag : Bool) (k playbackDuration loopLenSec : ℚ) : ℚ :=
  if loopFlag then
    min (playbackDuration + (k - 1) * loopLenSec + 0.02)
      (loopLenSec * k - 0.001)
  else playbackDuration + 0.1

/-- The stop deadline `playQueue` computes for one participating roll, as a
pure function of the tempo, the roll's loop config and its registration. -/
def rollStopDeadline (quarterSeconds : ℚ) (loopConfig : Option LoopConfig)
    (roll : RollRegistration) : ℚ :=
  let startQ := roll.queueStart
  let activeNotes := activeNotesOf startQ roll.notes
  let loopLength := loopLengthOf startQ (maxEndOf activeNotes)
  let k := effectiveLoopCountQueue loopConfig
  stopAtQueue (decide (k > 1)) k
    (playbackDurationOf (scheduledEventsOf quarterSeconds activeNotes))
    (loopLength * quarterSeconds)

/-- One iteration of the playhead-reset loop of `stopInternal` in queue
mode: a still-registered id gets its playhead set to its own queue start. -/
def resetStep (acc : CoordState × List Effect) (id : String) :
    CoordState × List Effect :=
  match mapGet acc.1.rolls id with
  | some roll =>
    (({ acc.1 with
        livePlayheads := mapSet acc.1.livePlayheads id roll.queueStart }),
      acc.2 ++ [Effect.setPlayhead id roll.queueStart])
  | none => acc

/-- The playhead-reset loop of `stopInternal` for queue mode: every id in
`currentQueueIds` that is still registered gets its playhead set to its own
queue start. -/
def resetQueueRolls (s : CoordState) (ids : List String) :
    CoordState × List Effect :=
  ids.foldl resetStep (s, [])

/-- `stopInternal(resetToQueue)`: no-op when nothing is playing and no
parts exist; otherwise stop the transport, clear transport schedules,
dispose all parts, cancel all animation, clear `currentRollId`/`isPlaying`,
optionally reset playheads to queue starts, and clear the per-session
maps. -/
def stopInternal (resetToQueue : Bool) (s : CoordState) :
    CoordState × List Effect :=
  if !s.isPlaying && s.currentParts.isEmpty then (s, [])
  else
    let r1 := clearTransportSchedules s
    let disposeEffs := r1.1.currentParts.map (fun p => Effect.partDispose p.1)
    let s2 := { r1.1 with currentParts := [] }
    let r3 := clearAnimationAll s2
    let rollId := r3.1.currentRollId
    let s4 := { r3.1 with currentRollId := none, isPlaying := false }
    let r5 :=
      if resetToQueue then
        if s4.isQueueMode then resetQueueRolls s4 s4.currentQueueIds
        else
          match rollId with
          | some rid =>
            match mapGet s4.rolls rid with
            | some roll =>
              (({ s4 with
                  livePlayheads :=
                    mapSet s4.livePlayheads rid roll.queueStart }),
                [Effect.setPlayhead rid roll.queueStart])
            | none => (s4, [])
          | none => (s4, [])
      else (s4, [])
    (({ r5.1 with playbackStartPositions := [], queueState := none }),
      Effect.transportStop :: r1.2 ++ disposeEffs ++ r3.2 ++ r5.2)

/-- `playRollInternal(rollId)` (the awaited `Tone.start()` and instrument
readiness checks have no observable effect in the model). -/
def playRollInternal (quarterSeconds : ℚ) (rollId : String) (s : CoordState) :
    CoordState × List Effect :=
  match mapGet s.rolls rollId, mapGet s.instruments rollId with
  | some roll, some _ =>
    let playbackStartPosition := roll.queueStart
    let s0 :=
      { s with
        playbackStartPositions :=
          mapSet s.playbackStartPositions rollId playbackStartPosition }
    let activeNotes := activeNotesOf playbackStartPosition roll.notes
    if activeNotes.isEmpty then
      (({ s0 with
          livePlayheads :=
            mapSet s0.livePlayheads rollId playbackStartPosition }),
        [Effect.setPlayhead rollId playbackStartPosition])
    else
      let loopLength :=
        loopLengthOf playbackStartPosition (maxEndOf activeNotes)
      let scheduledEvents := scheduledEventsOf quarterSeconds activeNotes
      let disposeEffs :=
        if mapHas s0.currentParts rollId then [Effect.partDispose rollId]
        else []
      let r1 := clearTransportSchedules s0
      let s1 := r1.1
      let count := effectiveLoopCount s1.isQueueMode (mapGet s1.loopConfigs rollId)
      let loopFlag := loopFlagSingle count
      let part : Part :=
        { events := scheduledEvents
          loop := loopFlag
          loopEnd := if loopFlag then loopLength * quarterSeconds else 0 }
      let s2 :=
        { s1 with
          currentParts := mapSet s1.currentParts rollId part
          currentRollId := some rollId
          isPlaying := true
          livePlayheads :=
            mapSet s1.livePlayheads rollId playbackStartPosition }
      let stopAt :=
        stopAtSingle loopFlag count (playbackDurationOf scheduledEvents)
          (loopLength * quarterSeconds)
      let s3 := scheduleAnimation rollId s2
      let baseEffs :=
        disposeEffs ++ r1.2 ++
          [Effect.partStart rollId, Effect.transportStop,
            Effect.transportSetPositionZero,
            Effect.transportStart START_DELAY,
            Effect.setPlayhead rollId playbackStartPosition]
      match stopAt with
      | none => (s3, baseEffs)
      | some t =>
        ({ s3 with stopSchedule := some t },
          baseEffs ++ [Effect.scheduleStop t])
  | _, _ => (s, [])

/-- `playRoll(id)`: soft-stop any active session, leave queue mode, then
run `playRollInternal`. -/
def playRoll (quarterSeconds : ℚ) (id : String) (s : CoordState) :
    CoordState × List Effect :=
  let r1 := if s.isPlaying then stopInternal false s else (s, [])
  let s2 := { r1.1 with isQueueMode := false, currentQueueIds := [] }
  let r2 := playRollInternal quarterSeconds id s2
  (r2.1, r1.2 ++ r2.2)

/-- The body of `playQueue`'s per-roll loop (lines 349-420), threading the
state, the effect trace and the running `maxStopAt`. -/
def queueStep (quarterSeconds : ℚ)
    (acc : CoordState × List Effect × ℚ) (rollId : String) :
    CoordState × List Effect × ℚ :=
  let s := acc.1
  let effs := acc.2.1
  let maxStopAt := acc.2.2
  match mapGet s.rolls rollId, mapGet s.instruments rollId with
  | some roll, some _ =>
    let playbackStartPosition := roll.queueStart
    let s0 :=
      { s with
        playbackStartPositions :=
          mapSet s.playbackStartPositions rollId playbackStartPosition }
    let activeNotes := activeNotesOf playbackStartPosition roll.notes
    if activeNotes.isEmpty then
      (({ s0 with
          livePlayheads :=
            mapSet s0.livePlayheads rollId playbackStartPosition }),
        effs ++ [Effect.setPlayhead rollId playbackStartPosition], maxStopAt)
    else
      let loopLength :=
        loopLengthOf playbackStartPosition (maxEndOf activeNotes)
      let scheduledEvents := scheduledEventsOf quarterSeconds activeNotes
      let k := effectiveLoopCountQueue (mapGet s0.loopConfigs rollId)
      let loopFlag := decide (k > 1)
      let part : Part :=
        { events := scheduledEvents
          loop := loopFlag
          loopEnd := if loopFlag then loopLength * quarterSeconds else 0 }
      let s1 :=
        { s0 with
          currentParts := mapSet s0.currentParts rollId part
          livePlayheads :=
            mapSet s0.livePlayheads rollId playbackStartPosition }
      let stopAt :=
        stopAtQueue loopFlag k (playbackDurationOf scheduledEvents)
          (loopLength * quarterSeconds)
      let s2 := scheduleAnimation rollId s1
      (s2,
        effs ++
          [Effect.partStart rollId,
            Effect.setPlayhead rollId playbackStartPosition],
        max maxStopAt stopAt)
  | _, _ => (s, effs, maxStopAt)

/-- `playQueue(ids)`: soft-stop any active session, enter queue mode with
the registered subset of `ids`, bail out if that subset is empty, run the
per-roll loop, start the transport once, mark the session playing, and
schedule the joint stop callback at the accumulated `maxStopAt`. -/
def playQueue (quarterSeconds : ℚ) (ids : List String) (s : CoordState) :
    CoordState × List Effect :=
  let r1 := if s.isPlaying then stopInternal false s else (s, [])
  let queueIds := ids.filter (fun id => mapHas r1.1.rolls id)
  let s2 := { r1.1 with isQueueMode := true, currentQueueIds := queueIds }
  if queueIds.isEmpty then (s2, r1.2)
  else
    let r3 := queueIds.foldl (queueStep quarterSeconds) (s2, [], 0)
    let s3 := r3.1
    let loopEffs := r3.2.1
    let maxStopAt := r3.2.2
    let s4 :=
      { s3 with
        isPlaying := true
        queueState :=
          some
            { rollId := String.intercalate "," queueIds
              index := queueIds.length
              total := queueIds.length }
        stopSchedule := some maxStopAt }
    (s4,
      r1.2 ++ loopEffs ++
        [Effect.transportStop, Effect.transportSetPositionZero,
          Effect.transportStart START_DELAY, Effect.scheduleStop maxStopAt])

/-- `stop()`: leave queue mode, clear the queue id set, then hard-stop. -/
def stop (s : CoordState) : CoordState × List Effect :=
  stopInternal true { s with isQueueMode := false, currentQueueIds := [] }

/-- The firing of the stop deadline scheduled by `playRollInternal`
(lines 268-273): hard-stop only if this roll is still current. -/
def fireSingleStopDeadline (rollId : String) (s : CoordState) :
    CoordState × List Effect :=
  if s.currentRollId == some rollId then stopInternal true s else (s, [])

/-- The firing of the joint stop deadline scheduled by `playQueue`
(lines 433-435): unconditional hard stop. -/
def fireQueueStopDeadline (s : CoordState) : CoordState × List Effect :=
  stopInternal true s

/-- A roll id actually contributes events in `playQueue`'s per-roll loop
iff it is registered, has an instrument, and has active notes. -/
def queueActive (s : CoordState) (id : String) : Bool :=
  match mapGet s.rolls id, mapGet s.instruments id with
  | some roll, some _ => !(activeNotesOf roll.queueStart roll.notes).isEmpty
  | _, _ => false

/-- The ids of a `playQueue` call that contribute a stop deadline. -/
def queueActiveIds (s : CoordState) (ids : List String) : List String :=
  ids.filter (fun id => queueActive s id)

/-- The independently computed stop deadline of a registered roll, read off
the coordinator state. -/
def rollDeadlineIn (quarterSeconds : ℚ) (s : CoordState) (id : String) : ℚ :=
  match mapGet s.rolls id with
  | some roll => rollStopDeadline quarterSeconds (mapGet s.loopConfigs id) roll
  | none => 0

/-! Concrete scenario data used by counterexamples and witnesses. -/

/-- The single note of the spec's looping scenario:
`{position:0, duration:0.5}`. -/
def note3 : Note := { pitch := 60, position := 0, duration := 1/2 }

/-- The roll of the looping scenario, queue start 0. -/
def roll3 : RollRegistration := { id := "a", notes := [note3], queueStart := 0 }

/-- Coordinator state for the looping scenario: `roll3` registered with
loop `{enabled:true, count:3}`. -/
def scenario3 : CoordState :=
  setLoop "a" { enabled := true, count := some (JsNum.fin 3) }
    (registerRoll roll3 {})

/-- A roll whose single note starts at its queue start and lasts 2 quarter
notes. -/
def rollA2 : RollRegistration :=
  { id := "a", notes := [{ pitch := 60, position := 2, duration := 2 }],
    queueStart := 2 }

/-- A second roll with a disjoint note, queue start 5. -/
def rollB2 : RollRegistration :=
  { id := "b", notes := [{ pitch := 62, position := 5, duration := 1 }],
    queueStart := 5 }

/-- Both rolls registered, nothing playing. -/
def regAB : CoordState := registerRoll rollB2 (registerRoll rollA2 {})

/-- State in the middle of a queue session over rolls `a` and `b`. -/
def queuePlaying : CoordState := (playQueue (1/2) ["a", "b"] regAB).1

/-- The queue session after the per-frame animation callbacks have
advanced both live playheads (the animation update calls
`setLivePlayhead` with the elapsed-time position each frame). -/
def queueLive : CoordState :=
  { queuePlaying with livePlayheads := [("a", 37/10), ("b", 61/10)] }

/-- A looping roll for the joint-deadline witness: single note of 0.75
quarters at queue start 0. -/
def rollC2 : RollRegistration :=
  { id := "c", notes := [{ pitch := 64, position := 0, duration := 3/4 }],
    queueStart := 0 }

/-- `rollA2` and `rollC2` registered, `c` looping with count 4. -/
def regAC : CoordState :=
  setLoop "c" { enabled := true, count := some (JsNum.fin 4) }
    (registerRoll rollC2 (registerRoll rollA2 {}))

/-- A roll whose only note ends at quarter 1, before its queue start 2:
no active notes. -/
def rollN : RollRegistration :=
  { id := "n", notes := [{ pitch := 60, position := 0, duration := 1 }],
    queueStart := 2 }

/-- `rollN` registered, nothing playing. -/
def regN : CoordState := registerRoll rollN {}

/-- `rollA2` registered with an infinite loop count. -/
def regInf : CoordState :=
  setLoop "a" { enabled := true, count := some JsNum.inf }
    (registerRoll rollA2 {})

/-- A note far from the playback start with duration below one quarter. -/
def farNote : Note := { pitch := 60, position := 5, duration := 1/2 }

/-- A note shorter than a sixteenth of a quarter. -/
def tinyNote : Note := { pitch := 60, position := 0, duration := 1/100 }

end Coordinator

namespace Coordinator

/-! ### General lemmas about the map model and the timing helpers -/

theorem mapGet_set_self {α : Type} (m : List (String × α)) (k : String)
    (v : α) : mapGet (mapSet m k v) k = some v := by
  simp [mapGet, mapSet]

theorem ratFloor_eq_floor (q : ℚ) : (Rat.floor q : ℤ) = ⌊q⌋ := by
  rw [Rat.floor_def', Rat.floor_def]

theorem jsCeil_eq (x : ℚ) : jsCeil x = ((⌈x⌉ : ℤ) : ℚ) := by
  unfold jsCeil
  rw [ratFloor_eq_floor, Int.floor_neg]
  push_cast
  ring

theorem activeNotesOf_eq_nil (start : ℚ) (notes : List Note)
    (h : ∀ n ∈ notes, n.position + n.duration ≤ start) :
    activeNotesOf start notes = [] := by
  unfold activeNotesOf
  rw [List.filter_eq_nil_iff.mpr]
  · simp
  · intro n hn
    simpa using h n hn

end Coordinator

namespace Coordinator

/-- C2 (counterexample): with no roll registered under id `g`, `setLoop`
and `setInstrument` nevertheless change the loop-config and instrument
maps, so they are not no-ops on unknown ids. -/
theorem unknownId_setters_mutate_maps :
    mapHas ({} : CoordState).rolls "g" = false ∧
    (setLoop "g" { enabled := true, count := some (JsNum.fin 2) }
        ({} : CoordState)).loopConfigs ≠ ({} : CoordState).loopConfigs ∧
    (setInstrument "g" InstrumentKind.fm ({} : CoordState)).1.instruments ≠
      ({} : CoordState).instruments := by
  refine ⟨rfl, ?_, ?_⟩ <;> simp [setLoop, setInstrument, mapSet, mapDelete]

/-- C2 (amended): `setLoop` and `setInstrument` update their target map for
the given id unconditionally — registered or not — and leave every other
piece of coordinator state unchanged. -/
theorem setters_unconditional (id : String) (cfg : LoopConfig)
    (kind : InstrumentKind) (s : CoordState) :
    (setLoop id cfg s).loopConfigs = mapSet s.loopConfigs id cfg ∧
    (setLoop id cfg s).rolls = s.rolls ∧
    (setLoop id cfg s).instruments = s.instruments ∧
    (setLoop id cfg s).isPlaying = s.isPlaying ∧
    (setLoop id cfg s).livePlayheads = s.livePlayheads ∧
    mapGet (setLoop id cfg s).loopConfigs id = some cfg ∧
    (setInstrument id kind s).1.instruments =
      mapSet (mapDelete s.instruments id) id kind ∧
    (setInstrument id kind s).1.rolls = s.rolls ∧
    (setInstrument id kind s).1.loopConfigs = s.loopConfigs ∧
    (setInstrument id kind s).1.isPlaying = s.isPlaying ∧
    mapGet (setInstrument id kind s).1.instruments id = some kind := by
  refine ⟨rfl, rfl, rfl, rfl, rfl, ?_, rfl, rfl, rfl, rfl, ?_⟩ <;>
    simp [setLoop, setInstrument, mapGet_set_self]

/-- C3 (counterexample): in the spec's looping scenario the stop callback
is scheduled at 1.27 seconds, not at the claimed 0.27 seconds. -/
theorem loopScenario_stop_not_027 :
    (playRoll (1/2) "a" scenario3).1.stopSchedule = some (127/100) ∧
    ((127 : ℚ)/100) ≠ 27/100 ∧
    Effect.scheduleStop (27/100) ∉ (playRoll (1/2) "a" scenario3).2 := by
  refine ⟨?_, by norm_num, ?_⟩
  · norm_num [playRoll, playRollInternal, scenario3, roll3, note3, registerRoll,
      setLoop, stopInternal, mapGet, mapSet, mapHas, mapDelete, activeNotesOf,
      jsMax, maxEndOf, loopLengthOf, jsCeil, Rat.floor, mkScheduledEvent,
      scheduledEventsOf, jsOr1, jsMinTen, effectiveLoopCount, loopFlagSingle,
      playbackDurationOf, stopAtSingle, clearTransportSchedules,
      scheduleAnimation, rafSet, START_DELAY]
  · norm_num [playRoll, playRollInternal, scenario3, roll3, note3, registerRoll,
      setLoop, stopInternal, mapGet, mapSet, mapHas, mapDelete, activeNotesOf,
      jsMax, maxEndOf, loopLengthOf, jsCeil, Rat.floor, mkScheduledEvent,
      scheduledEventsOf, jsOr1, jsMinTen, effectiveLoopCount, loopFlagSingle,
      playbackDurationOf, stopAtSingle, clearTransportSchedules,
      scheduleAnimation, rafSet, START_DELAY]
    simp

/-- C3 (amended): the scenario computes loop length 1 quarter (0.5 s on the
part), last event end 0.25 s, and schedules its stop at
`min(0.25 + 2*0.5 + 0.02, 0.5*3 - 0.001) = min(1.27, 1.499) = 1.27` s —
during the third loop iteration's tail. -/
theorem loopScenario_arithmetic :
    loopLengthOf 0 (maxEndOf (activeNotesOf 0 [note3])) = 1 ∧
    playbackDurationOf (scheduledEventsOf (1/2) (activeNotesOf 0 [note3])) =
      1/4 ∧
    (mapGet (playRoll (1/2) "a" scenario3).1.currentParts "a").map
      Part.loopEnd = some (1/2) ∧
    stopAtSingle true (JsNum.fin 3) (1/4) (1/2) =
      some (min (1/4 + (3 - 1) * (1/2) + 0.02) ((1/2) * 3 - 0.001)) ∧
    min ((1:ℚ)/4 + (3 - 1) * (1/2) + 0.02) ((1/2) * 3 - 0.001) = 127/100 ∧
    (playRoll (1/2) "a" scenario3).1.stopSchedule = some (127/100) := by
  refine ⟨?_, ?_, ?_, ?_, by norm_num, ?_⟩ <;>
    norm_num [playRoll, playRollInternal, scenario3, roll3, note3, registerRoll,
      setLoop, stopInternal, mapGet, mapSet, mapHas, mapDelete, activeNotesOf,
      jsMax, maxEndOf, loopLengthOf, jsCeil, Rat.floor, mkScheduledEvent,
      scheduledEventsOf, jsOr1, jsMinTen, effectiveLoopCount, loopFlagSingle,
      playbackDurationOf, stopAtSingle, clearTransportSchedules,
      scheduleAnimation, rafSet, START_DELAY]

end Coordinator

namespace Coordinator

/-- C4 (counterexample): a playback whose single active note has duration
1/2 < 1 but sits 5 quarters past the playback start gets loop length 6,
not 1. -/
theorem loopLength_not_always_one :
    farNote.duration < 1 ∧
    activeNotesOf 0 [farNote] = [(farNote, 5)] ∧
    loopLengthOf 0 (maxEndOf (activeNotesOf 0 [farNote])) = 6 ∧
    ((6 : ℚ)) ≠ 1 := by
  refine ⟨by norm_num [farNote], ?_, ?_, by norm_num⟩ <;>
    norm_num [farNote, activeNotesOf, maxEndOf, jsMax, loopLengthOf, jsCeil,
      Rat.floor]

/-- C4 (amended): for a single active note that begins at or before the
playback start and has duration below one quarter note, the computed loop
length is exactly 1. -/
theorem loopLength_one_of_short_note (start : ℚ) (n : Note)
    (hpos : n.position ≤ start) (hdur : n.duration < 1)
    (hact : start < n.position + n.duration) :
    loopLengthOf start (maxEndOf (activeNotesOf start [n])) = 1 := by
  have hx1 : n.position + n.duration - start ≤ 1 := by linarith
  have hx0 : 0 < n.position + n.duration - start := by linarith
  have hceil : ⌈n.position + n.duration - start⌉ = 1 := by
    have h1 : ⌈n.position + n.duration - start⌉ ≤ 1 :=
      Int.ceil_le.mpr (by exact_mod_cast hx1)
    have h2 : 0 < ⌈n.position + n.duration - start⌉ := Int.ceil_pos.mpr hx0
    omega
  have han : activeNotesOf start [n] = [(n, max 0 (n.position - start))] := by
    simp [activeNotesOf, hact]
  rw [han]
  simp [maxEndOf, jsMax, loopLengthOf, jsCeil_eq, hceil]

/-- C4 witness: the amended statement at the scenario note
`{position:0, duration:0.5}` with playback start 0. -/
theorem loopLength_one_of_short_note_witness :
    loopLengthOf 0 (maxEndOf (activeNotesOf 0 [note3])) = 1 :=
  loopLength_one_of_short_note 0 note3 (by norm_num [note3])
    (by norm_num [note3]) (by norm_num [note3])

/-- C9: every scheduled event arises from an active note and its duration
is `max(duration, 0.0625) * quarterSeconds`; in particular a note shorter
than a sixteenth of a quarter is triggered with duration
`0.0625 * quarterSeconds`. -/
theorem event_duration_floor (quarterSeconds start : ℚ) (notes : List Note)
    (e : ScheduledEvent)
    (he : e ∈ scheduledEventsOf quarterSeconds (activeNotesOf start notes)) :
    ∃ n, n ∈ notes ∧ start < n.position + n.duration ∧
      e.duration = max n.duration 0.0625 * quarterSeconds ∧
      (n.duration < 0.0625 → e.duration = 0.0625 * quarterSeconds) := by
  unfold scheduledEventsOf activeNotesOf at he
  rw [List.mem_map] at he
  obtain ⟨entry, hentry, rfl⟩ := he
  rw [List.mem_map] at hentry
  obtain ⟨n, hn, rfl⟩ := hentry
  rw [List.mem_filter] at hn
  refine ⟨n, hn.1, by simpa using hn.2, rfl, ?_⟩
  intro hdur
  simp [mkScheduledEvent, max_eq_right (le_of_lt hdur)]

/-- C9 witness: the floor applied to a 0.01-quarter note at 120 BPM. -/
theorem event_duration_floor_witness :
    ∃ n, n ∈ [tinyNote] ∧ (0:ℚ) < n.position + n.duration ∧
      (mkScheduledEvent (1/2) (tinyNote, 0)).duration =
        max n.duration 0.0625 * (1/2) ∧
      (n.duration < 0.0625 →
        (mkScheduledEvent (1/2) (tinyNote, 0)).duration = 0.0625 * (1/2)) :=
  event_duration_floor (1/2) 0 [tinyNote] (mkScheduledEvent (1/2) (tinyNote, 0))
    (by norm_num [scheduledEventsOf, activeNotesOf, tinyNote])

end Coordinator

namespace Coordinator

theorem jsMinTen_le (j : JsNum) : jsMinTen j ≤ 10 := by
  cases j with
  | fin q => exact min_le_right q 10
  | inf => exact le_refl 10

theorem stopInternal_false_core (s : CoordState) :
    (stopInternal false s).1.rolls = s.rolls ∧
    (stopInternal false s).1.instruments = s.instruments ∧
    (stopInternal false s).1.loopConfigs = s.loopConfigs ∧
    (stopInternal false s).1.isPlaying = false ∧
    (∀ d, Effect.transportStart d ∉ (stopInternal false s).2) ∧
    (∀ t, Effect.scheduleStop t ∉ (stopInternal false s).2) := by
  unfold stopInternal
  by_cases h : (!s.isPlaying && s.currentParts.isEmpty) = true
  · rw [if_pos h]
    simp only [Bool.and_eq_true, Bool.not_eq_true'] at h
    simp [h.1]
  · rw [if_neg h]
    refine ⟨rfl, rfl, rfl, rfl, ?_, ?_⟩ <;>
      · intro x
        simp only [clearTransportSchedules, clearAnimationAll]
        split_ifs <;> simp_all

theorem playRollInternal_inactive (qs : ℚ) (id : String) (s2 : CoordState)
    (roll : RollRegistration) (kind : InstrumentKind)
    (hroll : mapGet s2.rolls id = some roll)
    (hinstr : mapGet s2.instruments id = some kind)
    (hact : activeNotesOf roll.queueStart roll.notes = []) :
    playRollInternal qs id s2 =
      ({ s2 with
          playbackStartPositions :=
            mapSet s2.playbackStartPositions id roll.queueStart
          livePlayheads := mapSet s2.livePlayheads id roll.queueStart },
        [Effect.setPlayhead id roll.queueStart]) := by
  unfold playRollInternal
  rw [hroll, hinstr]
  simp [hact]

theorem stopInternal_noop (b : Bool) (s : CoordState)
    (h1 : s.isPlaying = false) (h2 : s.currentParts = []) :
    stopInternal b s = (s, []) := by
  unfold stopInternal
  simp [h1, h2]

theorem playRoll_inactive (qs : ℚ) (id : String) (s : CoordState)
    (roll : RollRegistration) (kind : InstrumentKind)
    (hroll : mapGet s.rolls id = some roll)
    (hinstr : mapGet s.instruments id = some kind)
    (hnotes : ∀ n ∈ roll.notes, n.position + n.duration ≤ roll.queueStart) :
    (playRoll qs id s).1.isPlaying = false ∧
    mapGet (playRoll qs id s).1.livePlayheads id = some roll.queueStart ∧
    (∀ d, Effect.transportStart d ∉ (playRoll qs id s).2) ∧
    (∀ t, Effect.scheduleStop t ∉ (playRoll qs id s).2) := by
  have hact := activeNotesOf_eq_nil roll.queueStart roll.notes hnotes
  unfold playRoll
  by_cases hp : s.isPlaying = true
  · obtain ⟨c1, c2, c3, c4, c5, c6⟩ := stopInternal_false_core s
    rw [if_pos hp]
    simp only []
    rw [playRollInternal_inactive qs id _ roll kind (by simpa [c1] using hroll)
      (by simpa [c2] using hinstr) hact]
    refine ⟨c4, mapGet_set_self _ _ _, ?_, ?_⟩ <;>
      · intro x hx
        simp only [List.mem_append, List.mem_singleton] at hx
        rcases hx with hx | hx
        · first
          | exact c5 x hx
          | exact c6 x hx
        · simp at hx
  · rw [if_neg hp]
    simp only []
    rw [playRollInternal_inactive qs id _ roll kind (by simpa using hroll)
      (by simpa using hinstr) hact]
    refine ⟨by simpa using hp, mapGet_set_self _ _ _, ?_, ?_⟩ <;>
      · intro x
        simp

end Coordinator

namespace Coordinator

/-- C7: `playRoll` on a registered roll whose notes all end at or before
its queue start never sets `isPlaying`; it resets the roll's playhead to
its queue start, starts no transport and schedules no stop callback. -/
theorem noActiveNotes_playRoll_never_plays (qs : ℚ) (id : String)
    (s : CoordState) (roll : RollRegistration) (kind : InstrumentKind)
    (hroll : mapGet s.rolls id = some roll)
    (hinstr : mapGet s.instruments id = some kind)
    (hnotes : ∀ n ∈ roll.notes, n.position + n.duration ≤ roll.queueStart) :
    (playRoll qs id s).1.isPlaying = false ∧
    mapGet (playRoll qs id s).1.livePlayheads id = some roll.queueStart ∧
    (∀ d, Effect.transportStart d ∉ (playRoll qs id s).2) ∧
    (∀ t, Effect.scheduleStop t ∉ (playRoll qs id s).2) :=
  playRoll_inactive qs id s roll kind hroll hinstr hnotes

/-- C7 witness: `rollN` (note ending at quarter 1, queue start 2) played
alone at 120 BPM. -/
theorem noActiveNotes_playRoll_never_plays_witness :
    (playRoll (1/2) "n" regN).1.isPlaying = false ∧
    mapGet (playRoll (1/2) "n" regN).1.livePlayheads "n" =
      some rollN.queueStart ∧
    (∀ d, Effect.transportStart d ∉ (playRoll (1/2) "n" regN).2) ∧
    (∀ t, Effect.scheduleStop t ∉ (playRoll (1/2) "n" regN).2) :=
  noActiveNotes_playRoll_never_plays (1/2) "n" regN rollN
    InstrumentKind.piano (by rfl) (by rfl)
    (by
      intro n hn
      simp [rollN] at hn
      simp [hn, rollN])

end Coordinator

namespace Coordinator

theorem resetStep_core (acc : CoordState × List Effect) (id : String) :
    (resetStep acc id).1.isPlaying = acc.1.isPlaying ∧
    (resetStep acc id).1.currentParts = acc.1.currentParts ∧
    (resetStep acc id).1.isQueueMode = acc.1.isQueueMode ∧
    (resetStep acc id).1.currentQueueIds = acc.1.currentQueueIds := by
  unfold resetStep
  cases mapGet acc.1.rolls id <;> simp

theorem resetFold_core (ids : List String) :
    ∀ acc : CoordState × List Effect,
      (ids.foldl resetStep acc).1.isPlaying = acc.1.isPlaying ∧
      (ids.foldl resetStep acc).1.currentParts = acc.1.currentParts ∧
      (ids.foldl resetStep acc).1.isQueueMode = acc.1.isQueueMode ∧
      (ids.foldl resetStep acc).1.currentQueueIds = acc.1.currentQueueIds := by
  induction ids with
  | nil => exact fun acc => ⟨rfl, rfl, rfl, rfl⟩
  | cons id ids ih =>
    intro acc
    have h1 := resetStep_core acc id
    have h2 := ih (resetStep acc id)
    exact ⟨h2.1.trans h1.1, h2.2.1.trans h1.2.1, h2.2.2.1.trans h1.2.2.1,
      h2.2.2.2.trans h1.2.2.2⟩

theorem stopInternal_post (b : Bool) (s : CoordState) :
    (stopInternal b s).1.isPlaying = false ∧
    (stopInternal b s).1.currentParts = [] ∧
    (stopInternal b s).1.isQueueMode = s.isQueueMode ∧
    (stopInternal b s).1.currentQueueIds = s.currentQueueIds := by
  unfold stopInternal
  by_cases h : (!s.isPlaying && s.currentParts.isEmpty) = true
  · rw [if_pos h]
    simp only [Bool.and_eq_true, Bool.not_eq_true', List.isEmpty_iff] at h
    simp [h.1, h.2]
  · rw [if_neg h]
    simp only [clearTransportSchedules, clearAnimationAll]
    cases b with
    | false => simp
    | true =>
      by_cases hq : s.isQueueMode = true
      · simp only [hq]
        simp only [resetQueueRolls]
        have hr := resetFold_core s.currentQueueIds
        refine ⟨?_, ?_, ?_, ?_⟩ <;> simp [hq, (hr _).1, (hr _).2.1,
          (hr _).2.2.1, (hr _).2.2.2]
      · simp only [Bool.not_eq_true] at hq
        cases hcur : s.currentRollId with
        | none => simp [hq, hcur]
        | some rid =>
          cases hget : mapGet s.rolls rid <;> simp [hq, hcur, hget]

theorem clearFlags_id (s : CoordState) (hq : s.isQueueMode = false)
    (hc : s.currentQueueIds = []) :
    ({ s with isQueueMode := false, currentQueueIds := [] } : CoordState)
      = s := by
  cases s
  simp_all

/-- C8: `stop()` is idempotent: the first call leaves `isPlaying = false`,
and a second call returns the same state untouched with an empty effect
trace (no transport mutation at all). -/
theorem stop_idempotent (s : CoordState) :
    (stop s).1.isPlaying = false ∧
    stop ((stop s).1) = ((stop s).1, []) := by
  have hpost :=
    stopInternal_post true { s with isQueueMode := false, currentQueueIds := [] }
  have h1 : (stop s).1.isPlaying = false := hpost.1
  have h2 : (stop s).1.currentParts = [] := hpost.2.1
  have hq : (stop s).1.isQueueMode = false := by simpa using hpost.2.2.1
  have hc : (stop s).1.currentQueueIds = [] := by simpa using hpost.2.2.2
  refine ⟨h1, ?_⟩
  show stopInternal true
      { (stop s).1 with isQueueMode := false, currentQueueIds := [] } =
    ((stop s).1, [])
  rw [clearFlags_id _ hq hc]
  exact stopInternal_noop true _ h1 h2

end Coordinator

namespace Coordinator

/-- C5: the effective loop count is 1 when looping is disabled or
unconfigured; the queue-mode computation used by `playQueue` (and by the
queue branch of `playRollInternal`) is clamped to at most 10; outside queue
mode a finite nonzero count is used as-is, `Infinity` stays `Infinity`, and
with an infinite count `playRollInternal` never schedules a stop
callback. -/
theorem effective_loop_count_spec :
    (∀ m cfg, cfg.enabled = false →
      effectiveLoopCount m (some cfg) = JsNum.fin 1) ∧
    (∀ m, effectiveLoopCount m none = JsNum.fin 1) ∧
    (∀ cfg, effectiveLoopCount true cfg =
      JsNum.fin (effectiveLoopCountQueue cfg)) ∧
    (∀ cfg, effectiveLoopCountQueue cfg ≤ 10) ∧
    (∀ q, q ≠ 0 →
      effectiveLoopCount false
        (some { enabled := true, count := some (JsNum.fin q) }) =
        JsNum.fin q) ∧
    (effectiveLoopCount false
      (some { enabled := true, count := some JsNum.inf }) = JsNum.inf) ∧
    (∀ qs id s t,
      mapGet s.loopConfigs id =
        some { enabled := true, count := some JsNum.inf } →
      s.isQueueMode = false →
      Effect.scheduleStop t ∉ (playRollInternal qs id s).2) := by
  refine ⟨?_, ?_, ?_, ?_, ?_, rfl, ?_⟩
  · intro m cfg hcfg
    simp [effectiveLoopCount, hcfg]
  · intro m
    rfl
  · intro cfg
    cases cfg with
    | none => rfl
    | some c =>
      by_cases hc : c.enabled <;>
        simp [effectiveLoopCount, effectiveLoopCountQueue, hc]
  · intro cfg
    cases cfg with
    | none => norm_num [effectiveLoopCountQueue]
    | some c =>
      by_cases hc : c.enabled <;>
        simp [effectiveLoopCountQueue, hc, jsMinTen_le]
  · intro q hq
    simp [effectiveLoopCount, jsOr1, hq]
  · intro qs id s t hcfg hmode
    unfold playRollInternal
    cases hroll : mapGet s.rolls id with
    | none => simp
    | some roll =>
      cases hinstr : mapGet s.instruments id with
      | none => simp
      | some kind =>
        by_cases hemp : (activeNotesOf roll.queueStart roll.notes).isEmpty
        · simp [hemp]
        · rw [Bool.not_eq_true] at hemp
          by_cases hpart : mapHas s.currentParts id <;>
            by_cases hsch : s.stopSchedule.isSome <;>
              simp [hemp, hmode, hcfg, hpart, hsch, effectiveLoopCount,
                loopFlagSingle, stopAtSingle, clearTransportSchedules]

/-- C5 witness: concrete instances of the clamp, the as-is case, and the
unscheduled stop for `regInf` (roll `a` with an infinite loop count). -/
theorem effective_loop_count_spec_witness :
    effectiveLoopCount false
        (some { enabled := false, count := some (JsNum.fin 7) }) =
      JsNum.fin 1 ∧
    effectiveLoopCount false
        (some { enabled := true, count := some (JsNum.fin 7) }) =
      JsNum.fin 7 ∧
    effectiveLoopCountQueue
        (some { enabled := true, count := some JsNum.inf }) ≤ 10 ∧
    Effect.scheduleStop 0 ∉ (playRollInternal (1/2) "a" regInf).2 :=
  ⟨effective_loop_count_spec.1 false _ rfl,
    effective_loop_count_spec.2.2.2.2.1 7 (by norm_num),
    effective_loop_count_spec.2.2.2.1 _,
    effective_loop_count_spec.2.2.2.2.2.2 (1/2) "a" regInf 0 (by rfl) rfl⟩

end Coordinator

namespace Coordinator

theorem beq_ab : (("a" : String) == "b") = false := by decide

theorem beq_ba : (("b" : String) == "a") = false := by decide

theorem bne_ab : (("a" : String) != "b") = true := by decide

theorem bne_ba : (("b" : String) != "a") = true := by decide

/-- C1 (code evaluated at the failing input): in a queue-mode session over
rolls `a` (queue start 2) and `b` (queue start 5) whose live playheads the
animation callbacks have moved to 3.7 and 6.1, an explicit `stop()` call
emits no `setLivePlayhead` effect at all and leaves both playheads where
they were — because `stop()` clears `isQueueMode` and `currentQueueIds`
before calling `stopInternal(true)` — while the deadline-fired hard stop
(`stopInternal(true)` with the mode flags still set) resets each roll to
its own queue start. -/
theorem queue_explicit_stop_skips_reset :
    queueLive.isQueueMode = true ∧
    queueLive.isPlaying = true ∧
    (∀ id p, Effect.setPlayhead id p ∉ (stop queueLive).2) ∧
    mapGet (stop queueLive).1.livePlayheads "a" = some (37/10) ∧
    mapGet (stop queueLive).1.livePlayheads "b" = some (61/10) ∧
    rollA2.queueStart = 2 ∧ rollB2.queueStart = 5 ∧
    mapGet (fireQueueStopDeadline queueLive).1.livePlayheads "a" = some 2 ∧
    mapGet (fireQueueStopDeadline queueLive).1.livePlayheads "b" = some 5 := by
  refine ⟨?_, ?_, ?_, ?_, ?_, rfl, rfl, ?_, ?_⟩ <;>
  · first
    | intro id p
    | skip
    norm_num [queueLive, queuePlaying, regAB, registerRoll, rollA2, rollB2,
      playQueue, queueStep, stop, stopInternal, fireQueueStopDeadline,
      resetQueueRolls, resetStep, clearTransportSchedules, clearAnimationAll,
      mapGet, mapSet, mapHas, mapDelete, activeNotesOf, maxEndOf, jsMax,
      loopLengthOf, jsCeil, Rat.floor, scheduledEventsOf, mkScheduledEvent,
      effectiveLoopCountQueue, jsOr1, jsMinTen, playbackDurationOf,
      stopAtQueue, scheduleAnimation, rafSet, START_DELAY,
      beq_ab, beq_ba, bne_ab, bne_ba] <;> simp

end Coordinator

namespace Coordinator

theorem queueStep_core (qs : ℚ) (acc : CoordState × List Effect × ℚ)
    (id : String) :
    (queueStep qs acc id).1.rolls = acc.1.rolls ∧
    (queueStep qs acc id).1.instruments = acc.1.instruments ∧
    (queueStep qs acc id).1.loopConfigs = acc.1.loopConfigs := by
  unfold queueStep
  simp only []
  cases hroll : mapGet acc.1.rolls id with
  | none => exact ⟨rfl, rfl, rfl⟩
  | some roll =>
    cases hinstr : mapGet acc.1.instruments id with
    | none => exact ⟨rfl, rfl, rfl⟩
    | some kind =>
      by_cases hemp : (activeNotesOf roll.queueStart roll.notes).isEmpty =
          true
      · simp [hemp]
      · rw [Bool.not_eq_true] at hemp
        simp [hemp, scheduleAnimation]
        split_ifs <;> simp

theorem queueStep_max (qs : ℚ) (acc : CoordState × List Effect × ℚ)
    (id : String) :
    (queueStep qs acc id).2.2 =
      if queueActive acc.1 id then
        max acc.2.2 (rollDeadlineIn qs acc.1 id)
      else acc.2.2 := by
  unfold queueStep queueActive rollDeadlineIn rollStopDeadline
  simp only []
  cases hroll : mapGet acc.1.rolls id with
  | none => simp
  | some roll =>
    cases hinstr : mapGet acc.1.instruments id with
    | none => simp
    | some kind =>
      by_cases hemp : (activeNotesOf roll.queueStart roll.notes).isEmpty =
          true
      · simp [hemp]
      · rw [Bool.not_eq_true] at hemp
        simp [hemp, scheduleAnimation]

end Coordinator

namespace Coordinator

theorem queueActive_congr (s s2 : CoordState) (h1 : s2.rolls = s.rolls)
    (h2 : s2.instruments = s.instruments) :
    queueActive s2 = queueActive s := by
  funext id
  unfold queueActive
  rw [h1, h2]

theorem rollDeadlineIn_congr (qs : ℚ) (s s2 : CoordState)
    (h1 : s2.rolls = s.rolls) (h3 : s2.loopConfigs = s.loopConfigs) :
    rollDeadlineIn qs s2 = rollDeadlineIn qs s := by
  funext id
  unfold rollDeadlineIn
  rw [h1, h3]

theorem queueFold_max (qs : ℚ) (ids : List String) :
    ∀ acc : CoordState × List Effect × ℚ,
      (List.foldl (queueStep qs) acc ids).2.2 =
        List.foldl max acc.2.2
          (List.map (fun i => rollDeadlineIn qs acc.1 i)
            (List.filter (fun i => queueActive acc.1 i) ids)) := by
  induction ids with
  | nil => intro acc; rfl
  | cons id ids ih =>
    intro acc
    rw [List.foldl_cons, ih (queueStep qs acc id)]
    obtain ⟨c1, c2, c3⟩ := queueStep_core qs acc id
    simp only [queueActive_congr acc.1 (queueStep qs acc id).1 c1 c2,
      rollDeadlineIn_congr qs acc.1 (queueStep qs acc id).1 c1 c3,
      queueStep_max qs acc id]
    by_cases ha : queueActive acc.1 id = true
    · simp [ha, List.filter_cons]
    · rw [Bool.not_eq_true] at ha
      simp [ha, List.filter_cons]

end Coordinator

namespace Coordinator

theorem le_foldl_eventEnd (l : List ScheduledEvent) :
    ∀ a : ℚ, a ≤ l.foldl (fun e ev => max e (ev.time + ev.duration)) a := by
  induction l with
  | nil => intro a; exact le_refl a
  | cons x xs ih =>
    intro a
    calc a ≤ max a (x.time + x.duration) := le_max_left _ _
    _ ≤ xs.foldl (fun e ev => max e (ev.time + ev.duration))
          (max a (x.time + x.duration)) := ih _

theorem playbackDurationOf_nonneg (l : List ScheduledEvent) :
    0 ≤ playbackDurationOf l :=
  le_foldl_eventEnd l 0

theorem loopLengthOf_ge_one (a b : ℚ) : 1 ≤ loopLengthOf a b :=
  le_max_left 1 (jsCeil (b - a))

theorem stopAtQueue_nonneg (qs : ℚ) (hqs : (1/1000 : ℚ) ≤ qs)
    (k pd loopLength : ℚ) (hpd : 0 ≤ pd) (hll : 1 ≤ loopLength) :
    0 ≤ stopAtQueue (decide (k > 1)) k pd (loopLength * qs) := by
  unfold stopAtQueue
  by_cases hk : k > 1
  · have hqs0 : 0 ≤ qs := by linarith
    have hlls : qs ≤ loopLength * qs := by nlinarith
    have h1 : 0 ≤ pd + (k - 1) * (loopLength * qs) + 0.02 := by nlinarith
    have h2 : 0 ≤ loopLength * qs * k - 0.001 := by nlinarith
    rw [decide_eq_true hk, if_pos rfl]
    exact le_min h1 h2
  · rw [decide_eq_false hk]
    norm_num
    linarith

theorem rollDeadlineIn_nonneg (qs : ℚ) (hqs : (1/1000 : ℚ) ≤ qs)
    (s : CoordState) (id : String) : 0 ≤ rollDeadlineIn qs s id := by
  unfold rollDeadlineIn
  cases mapGet s.rolls id with
  | none => exact le_refl 0
  | some roll =>
    unfold rollStopDeadline
    exact stopAtQueue_nonneg qs hqs _ _ _
      (playbackDurationOf_nonneg _) (loopLengthOf_ge_one _ _)

theorem foldl_max_zero_eq_jsMax (l : List ℚ) (hne : l ≠ [])
    (h0 : ∀ x ∈ l, 0 ≤ x) : List.foldl max 0 l = jsMax l := by
  cases l with
  | nil => exact absurd rfl hne
  | cons x xs =>
    unfold jsMax
    rw [List.foldl_cons, max_eq_right (h0 x (List.mem_cons_self x xs))]

theorem queueActive_has (s : CoordState) (id : String)
    (h : queueActive s id = true) : mapHas s.rolls id = true := by
  unfold queueActive at h
  unfold mapHas
  cases hroll : mapGet s.rolls id with
  | none => rw [hroll] at h; simp at h
  | some roll => simp

theorem filter_has_filter_active (s : CoordState) (ids : List String) :
    List.filter (fun id => queueActive s id)
        (List.filter (fun id => mapHas s.rolls id) ids) =
      queueActiveIds s ids := by
  show _ = List.filter (fun id => queueActive s id) ids
  rw [List.filter_filter]
  refine List.filter_congr ?_
  intro a _
  by_cases ha : queueActive s a = true
  · rw [ha, queueActive_has s a ha]
    rfl
  · rw [Bool.not_eq_true] at ha
    rw [ha]
    simp

end Coordinator

namespace Coordinator

theorem queueFold_deadline (qs : ℚ) (ids : List String) (s s2 : CoordState)
    (h1 : s2.rolls = s.rolls) (h2 : s2.instruments = s.instruments)
    (h3 : s2.loopConfigs = s.loopConfigs) (hqs : (1/1000 : ℚ) ≤ qs)
    (hne : queueActiveIds s ids ≠ []) :
    (List.foldl (queueStep qs)
        ({ s2 with
            isQueueMode := true
            currentQueueIds :=
              List.filter (fun id => mapHas s2.rolls id) ids }, [], 0)
        (List.filter (fun id => mapHas s2.rolls id) ids)).2.2 =
      jsMax (List.map (fun i => rollDeadlineIn qs s i)
        (queueActiveIds s ids)) := by
  rw [queueFold_max]
  simp only []
  have e1 : queueActive
      ({ s2 with
          isQueueMode := true
          currentQueueIds :=
            List.filter (fun id => mapHas s2.rolls id) ids } : CoordState) =
      queueActive s := queueActive_congr s _ h1 h2
  have e2 : rollDeadlineIn qs
      ({ s2 with
          isQueueMode := true
          currentQueueIds :=
            List.filter (fun id => mapHas s2.rolls id) ids } : CoordState) =
      rollDeadlineIn qs s := rollDeadlineIn_congr qs s _ h1 h3
  simp only [e1, e2]
  simp only [h1]
  rw [filter_has_filter_active]
  refine foldl_max_zero_eq_jsMax _ ?_ ?_
  · simpa using hne
  · intro x hx
    obtain ⟨i, hi, hxi⟩ := List.mem_map.mp hx
    rw [← hxi]
    exact rollDeadlineIn_nonneg qs hqs s i

end Coordinator

namespace Coordinator

/-- C6: the single stop deadline scheduled by `playQueue` is the maximum
over all participating rolls that actually contribute events (registered,
instrumented, with active notes) of each roll's independently computed
stop deadline. -/
theorem queue_joint_deadline (qs : ℚ) (ids : List String) (s : CoordState)
    (hqs : (1/1000 : ℚ) ≤ qs) (hne : queueActiveIds s ids ≠ []) :
    (playQueue qs ids s).1.stopSchedule =
      some (jsMax (List.map (fun i => rollDeadlineIn qs s i)
        (queueActiveIds s ids))) ∧
    Effect.scheduleStop
        (jsMax (List.map (fun i => rollDeadlineIn qs s i)
          (queueActiveIds s ids))) ∈ (playQueue qs ids s).2 := by
  obtain ⟨a, ha⟩ := List.exists_mem_of_ne_nil _ hne
  have haMem := List.mem_filter.mp
    (show a ∈ List.filter (fun id => queueActive s id) ids from ha)
  have haF : a ∈ List.filter (fun id => mapHas s.rolls id) ids :=
    List.mem_filter.mpr ⟨haMem.1, queueActive_has s a haMem.2⟩
  unfold playQueue
  by_cases hp : s.isPlaying = true
  · rw [if_pos hp]
    obtain ⟨c1, c2, c3, c4, c5, c6⟩ := stopInternal_false_core s
    have hFeq :
        List.filter (fun id => mapHas (stopInternal false s).1.rolls id) ids =
          List.filter (fun id => mapHas s.rolls id) ids := by
      simp only [c1]
    have hcond :
        ¬ ((List.filter (fun id => mapHas (stopInternal false s).1.rolls id)
            ids).isEmpty = true) := by
      rw [hFeq, List.isEmpty_iff]
      exact List.ne_nil_of_mem haF
    have hd := queueFold_deadline qs ids s (stopInternal false s).1 c1 c2 c3
      hqs hne
    simp only []
    rw [if_neg hcond]
    refine ⟨congrArg some hd, ?_⟩
    rw [← hd]
    simp
  · rw [if_neg hp]
    have hcond :
        ¬ ((List.filter (fun id => mapHas s.rolls id) ids).isEmpty = true) := by
      rw [List.isEmpty_iff]
      exact List.ne_nil_of_mem haF
    have hd := queueFold_deadline qs ids s s rfl rfl rfl hqs hne
    simp only []
    rw [if_neg hcond]
    refine ⟨congrArg some hd, ?_⟩
    rw [← hd]
    simp

end Coordinator

namespace Coordinator

theorem beq_ac : (("a" : String) == "c") = false := by decide

theorem beq_ca : (("c" : String) == "a") = false := by decide

theorem bne_ac : (("a" : String) != "c") = true := by decide

theorem bne_ca : (("c" : String) != "a") = true := by decide

/-- C6 witness: queue over `rollA2` (plain, deadline 1.1 s) and `rollC2`
(looping 4 times, deadline 1.895 s) at 120 BPM. -/
theorem queue_joint_deadline_witness :
    (playQueue (1/2) ["a", "c"] regAC).1.stopSchedule =
      some (jsMax (List.map (fun i => rollDeadlineIn (1/2) regAC i)
        (queueActiveIds regAC ["a", "c"]))) ∧
    Effect.scheduleStop
        (jsMax (List.map (fun i => rollDeadlineIn (1/2) regAC i)
          (queueActiveIds regAC ["a", "c"]))) ∈
      (playQueue (1/2) ["a", "c"] regAC).2 :=
  queue_joint_deadline (1/2) ["a", "c"] regAC (by norm_num)
    (by
      norm_num [queueActiveIds, queueActive, regAC, registerRoll, setLoop,
        rollA2, rollC2, mapGet, mapSet, mapHas, mapDelete, activeNotesOf,
        List.filter, beq_ac, beq_ca, bne_ac, bne_ca]
      simp)

end Coordinator

namespace Coordinator

theorem queueActive_eq_false_of (s : CoordState) (id : String)
    (h : ∀ roll, mapGet s.rolls id = some roll →
      activeNotesOf roll.queueStart roll.notes = []) :
    queueActive s id = false := by
  unfold queueActive
  cases hroll : mapGet s.rolls id with
  | none => rfl
  | some roll =>
    cases hinstr : mapGet s.instruments id with
    | none => rfl
    | some kind => simp [h roll hroll]

theorem queueFold_deadline_zero (qs : ℚ) (ids : List String)
    (s s2 : CoordState) (h1 : s2.rolls = s.rolls)
    (h2 : s2.instruments = s.instruments)
    (hinact : ∀ id ∈ ids, queueActive s id = false) :
    (List.foldl (queueStep qs)
        ({ s2 with
            isQueueMode := true
            currentQueueIds :=
              List.filter (fun id => mapHas s2.rolls id) ids }, [], 0)
        (List.filter (fun id => mapHas s2.rolls id) ids)).2.2 = 0 := by
  rw [queueFold_max]
  simp only []
  have e1 : queueActive
      ({ s2 with
          isQueueMode := true
          currentQueueIds :=
            List.filter (fun id => mapHas s2.rolls id) ids } : CoordState) =
      queueActive s := queueActive_congr s _ h1 h2
  simp only [e1]
  have hnil : List.filter (fun i => queueActive s i)
      (List.filter (fun id => mapHas s2.rolls id) ids) = [] := by
    refine List.filter_eq_nil_iff.mpr ?_
    intro x hx
    simp [hinact x (List.mem_filter.mp hx).1]
  rw [hnil]
  rfl

/-- C10: a `playQueue` call whose filtered id set is nonempty but where no
participating roll has active notes still starts the transport, marks the
session playing, and schedules the joint stop callback at deadline 0 —
unlike `playRoll`, which never sets `isPlaying` in that situation. -/
theorem queue_all_inactive_still_plays (qs : ℚ) (ids : List String)
    (s : CoordState)
    (hne : List.filter (fun id => mapHas s.rolls id) ids ≠ [])
    (hnotes : ∀ id ∈ ids, ∀ roll, mapGet s.rolls id = some roll →
      activeNotesOf roll.queueStart roll.notes = []) :
    (playQueue qs ids s).1.isPlaying = true ∧
    (playQueue qs ids s).1.stopSchedule = some 0 ∧
    Effect.transportStart START_DELAY ∈ (playQueue qs ids s).2 ∧
    Effect.scheduleStop 0 ∈ (playQueue qs ids s).2 ∧
    (∀ id roll kind, mapGet s.rolls id = some roll →
      mapGet s.instruments id = some kind →
      (∀ n ∈ roll.notes, n.position + n.duration ≤ roll.queueStart) →
      (playRoll qs id s).1.isPlaying = false) := by
  have hinact : ∀ id ∈ ids, queueActive s id = false := fun id hid =>
    queueActive_eq_false_of s id (hnotes id hid)
  have hlast : ∀ id roll kind, mapGet s.rolls id = some roll →
      mapGet s.instruments id = some kind →
      (∀ n ∈ roll.notes, n.position + n.duration ≤ roll.queueStart) →
      (playRoll qs id s).1.isPlaying = false := fun id roll kind ha hb hc =>
    (playRoll_inactive qs id s roll kind ha hb hc).1
  unfold playQueue
  by_cases hp : s.isPlaying = true
  · rw [if_pos hp]
    obtain ⟨c1, c2, c3, c4, c5, c6⟩ := stopInternal_false_core s
    have hFeq :
        List.filter (fun id => mapHas (stopInternal false s).1.rolls id) ids =
          List.filter (fun id => mapHas s.rolls id) ids := by
      simp only [c1]
    have hcond :
        ¬ ((List.filter (fun id => mapHas (stopInternal false s).1.rolls id)
            ids).isEmpty = true) := by
      rw [hFeq, List.isEmpty_iff]
      exact hne
    have hz := queueFold_deadline_zero qs ids s (stopInternal false s).1 c1 c2
      hinact
    simp only []
    rw [if_neg hcond]
    refine ⟨rfl, congrArg some hz, by simp, ?_, hlast⟩
    rw [hz]
    simp
  · rw [if_neg hp]
    have hcond :
        ¬ ((List.filter (fun id => mapHas s.rolls id) ids).isEmpty = true) := by
      rw [List.isEmpty_iff]
      exact hne
    have hz := queueFold_deadline_zero qs ids s s rfl rfl hinact
    simp only []
    rw [if_neg hcond]
    refine ⟨rfl, congrArg some hz, by simp, ?_, hlast⟩
    rw [hz]
    simp

/-- C10 witness: `playQueue` over the single registered roll `n`, whose
only note ends before its queue start, at 120 BPM. -/
theorem queue_all_inactive_still_plays_witness :
    (playQueue (1/2) ["n"] regN).1.isPlaying = true ∧
    (playQueue (1/2) ["n"] regN).1.stopSchedule = some 0 ∧
    Effect.transportStart START_DELAY ∈ (playQueue (1/2) ["n"] regN).2 ∧
    Effect.scheduleStop 0 ∈ (playQueue (1/2) ["n"] regN).2 ∧
    (∀ id roll kind, mapGet regN.rolls id = some roll →
      mapGet regN.instruments id = some kind →
      (∀ n ∈ roll.notes, n.position + n.duration ≤ roll.queueStart) →
      (playRoll (1/2) id regN).1.isPlaying = false) :=
  queue_all_inactive_still_plays (1/2) ["n"] regN
    (by
      norm_num [regN, registerRoll, rollN, mapGet, mapSet, mapHas,
        List.filter])
    (by
      intro id hid roll hroll
      simp [regN, registerRoll, rollN, mapGet, mapSet] at hid hroll
      subst hid
      simp at hroll
      norm_num [← hroll, activeNotesOf, rollN, List.filter])

end Coordinator
